import Mathlib

/-!
A verification development for the `blender-gpx` add-on (`__init__.py` of
vvoovv/blender-gpx): a shallow embedding of the GPX parser `read_gpx_file`,
the origin-resolution logic `getProjection`, and the geometry builders
`makeMesh` / `makeCurve`, together with theorems about them.

Modelling conventions:
* Python floats are modelled as exact rationals (`ℚ`).  The claims under
  study are about control flow, ordering, counting and state, never about
  binary rounding.
* The transverse-Mercator forward formula (`transverse_mercator.py`) is
  transcendental; it is abstracted as a function parameter (`proj`,
  `fromGeo`).  Every theorem below is independent of its concrete values,
  and concrete witnesses instantiate it with a simple planar stand-in.
* Python exceptions are modelled with `Except`: a raised exception
  propagates (`.error`) and performs no further effects.  The one mutable
  effect of the importer, writing the origin into the Blender scene, is
  modelled by explicit `Scene` passing.
-/

/-- An XML element as seen through `xml.etree.cElementTree`: a tag,
an attribute dictionary, optional text content, and the child elements
(iterating an element yields its children). -/
inductive Xml where
  | elem (tag : String) (attrib : List (String × String)) (text : Option String)
      (children : List Xml)

def Xml.tag : Xml → String
  | .elem t _ _ _ => t

def Xml.attrib : Xml → List (String × String)
  | .elem _ a _ _ => a

def Xml.text : Xml → Option String
  | .elem _ _ x _ => x

def Xml.children : Xml → List Xml
  | .elem _ _ _ c => c

/-- Helper for `localName`: drop every character up to and including the
first `'\x7d'` (closing curly bracket); `none` when no bracket occurs. -/
def dropThroughBrace : List Char → Option (List Char)
  | [] => none
  | c :: rest => if c = '\x7d' then some rest else dropThroughBrace rest

/-- Python `e.tag[e.tag.find("\x7d")+1:]` (lines 137, 139, 142, 153 of
`__init__.py`): `str.find` returns the index of the first closing curly
bracket, or `-1` when there is none — in which case the slice `[0:]` is the
whole tag.  So: the suffix after the first closing bracket, or the whole
tag when no bracket occurs. -/
def localName (tag : String) : String :=
  match dropThroughBrace tag.data with
  | some rest => String.mk rest
  | none => tag

/-- Digit run to a natural number. -/
def digitsToNat (ds : List Char) : Nat :=
  ds.foldl (fun n c => 10 * n + (c.toNat - 48)) 0

/-- Exponent part of a Python float literal (after the `e`/`E`). -/
def parseFloatExp (mant : ℚ) (cs : List Char) : Option ℚ :=
  let signAndRest : Bool × List Char :=
    match cs with
    | '-' :: rest => (true, rest)
    | '+' :: rest => (false, rest)
    | _ => (false, cs)
  let ds := signAndRest.2.takeWhile Char.isDigit
  let rest := signAndRest.2.dropWhile Char.isDigit
  if ds.isEmpty || !rest.isEmpty then none
  else some (mant * (if signAndRest.1 then 1 / 10 ^ digitsToNat ds else 10 ^ digitsToNat ds))

/-- Mantissa of a Python float literal: optional sign, integer digits,
optional point and fraction digits, optional exponent. -/
def parseFloatCore (cs0 : List Char) : Option ℚ :=
  let signAndRest : ℚ × List Char :=
    match cs0 with
    | '-' :: rest => (-1, rest)
    | '+' :: rest => (1, rest)
    | _ => (1, cs0)
  let cs := signAndRest.2
  let ip := cs.takeWhile Char.isDigit
  let cs1 := cs.dropWhile Char.isDigit
  let fpAndRest : List Char × List Char :=
    match cs1 with
    | '.' :: rest => (rest.takeWhile Char.isDigit, rest.dropWhile Char.isDigit)
    | _ => ([], cs1)
  if ip.isEmpty && fpAndRest.1.isEmpty then none
  else
    let mant : ℚ := signAndRest.1 * (digitsToNat (ip ++ fpAndRest.1) : ℚ) / 10 ^ fpAndRest.1.length
    match fpAndRest.2 with
    | [] => some mant
    | 'e' :: rest => parseFloatExp mant rest
    | 'E' :: rest => parseFloatExp mant rest
    | _ => none

/-- Model of the Python builtin `float(s)` on the numeric literals that occur
in GPX attributes and elements: surrounding spaces are stripped, then an
optional sign, decimal digits with an optional fractional part, and an
optional decimal exponent are accepted; anything else fails (Python raises
`ValueError`).  (`inf`/`nan` spellings are out of scope for GPX data.)
The value is represented exactly as a rational. -/
def parseFloat (s : String) : Option ℚ :=
  parseFloatCore (((s.data.dropWhile (· == ' ')).reverse.dropWhile (· == ' ')).reverse)

/-- The exceptions the importer can raise while reading a GPX file:
`etree.parse` failure, a missing `lat`/`lon` attribute (`KeyError`),
`float()` on a non-numeric string (`ValueError`), and `float(None)` when an
`<ele>` element has no text (`TypeError`). -/
inductive GpxError where
  | parseError
  | keyError (attr : String)
  | valueError (s : String)
  | typeError
deriving DecidableEq, Repr

/-- Python `e.attrib[name]`: the attribute value, or a `KeyError`. -/
def pyAttr (e : Xml) (name : String) : Except GpxError String :=
  match e.attrib.lookup name with
  | some s => .ok s
  | none => .error (.keyError name)

/-- Python `float(s)` with its `ValueError` on failure. -/
def pyFloat (s : String) : Except GpxError ℚ :=
  match parseFloat s with
  | some q => .ok q
  | none => .error (.valueError s)

/-- A parsed track point, Python tuple `(lat, lon)` or `(lat, lon, ele)`
(line 156): `ele = some z` exactly when the source built the 3-tuple, i.e.
when `useElevation` was set and an `<ele>` child was found. -/
structure TrackPoint where
  lat : ℚ
  lon : ℚ
  ele : Option ℚ
deriving DecidableEq, Repr

/-- The running track extent, `minLat` / `maxLat` / `minLon` / `maxLon`
(lines 127-130). -/
structure BBox where
  minLat : ℚ
  maxLat : ℚ
  minLon : ℚ
  maxLon : ℚ
deriving DecidableEq, Repr

/-- Initial sentinel extent (lines 127-130). -/
def initBBox : BBox := ⟨90, -90, 180, -180⟩

/-- Lines 146-149, verbatim `if`/`elif` structure:
`if lat<minLat: minLat = lat` `elif lat>maxLat: maxLat = lat`, and the same
for the longitude. -/
def bboxUpdate (b : BBox) (lat lon : ℚ) : BBox :=
  let b1 := if lat < b.minLat then { b with minLat := lat }
    else if lat > b.maxLat then { b with maxLat := lat } else b
  if lon < b1.minLon then { b1 with minLon := lon }
  else if lon > b1.maxLon then { b1 with maxLon := lon } else b1

/-- Modelled from the spec (design note in spec.md §9): plain independent
min/max tracking over the same points, the variant the spec asserts the
`if`/`elif` chain is equivalent to.  Used only to compare against
`bboxUpdate`. -/
def specBBoxUpdate (b : BBox) (lat lon : ℚ) : BBox :=
  ⟨min b.minLat lat, max b.maxLat lat, min b.minLon lon, max b.maxLon lon⟩

/-- Lines 142-157: processing of one `<trkpt>` element — parse the `lat` and
`lon` attributes, update the running extent, search the children for the
first element with local name `ele` (the `for e4 ... break` loop), and build
the point tuple
`(lat, lon, float(ele.text)) if useElevation and ele is not None else (lat, lon)`. -/
def parseTrkpt (u : Bool) (b : BBox) (e3 : Xml) : Except GpxError (TrackPoint × BBox) :=
  match pyAttr e3 "lat" with
  | .error er => .error er
  | .ok latS =>
    match pyFloat latS with
    | .error er => .error er
    | .ok lat =>
      match pyAttr e3 "lon" with
      | .error er => .error er
      | .ok lonS =>
        match pyFloat lonS with
        | .error er => .error er
        | .ok lon =>
          let b1 := bboxUpdate b lat lon
          match e3.children.find? (fun e4 => localName e4.tag == "ele") with
          | some e4 =>
            if u then
              match e4.text with
              | none => .error .typeError
              | some s =>
                match pyFloat s with
                | .error er => .error er
                | .ok z => .ok (⟨lat, lon, some z⟩, b1)
            else .ok (⟨lat, lon, none⟩, b1)
          | none => .ok (⟨lat, lon, none⟩, b1)

/-- The point a `<trkpt>` element parses to, with the extent bookkeeping
projected away; used to state order-preservation.  Identical to
`parseTrkpt` except that no `BBox` is threaded. -/
def parsePointPure (u : Bool) (e3 : Xml) : Except GpxError TrackPoint :=
  match pyAttr e3 "lat" with
  | .error er => .error er
  | .ok latS =>
    match pyFloat latS with
    | .error er => .error er
    | .ok lat =>
      match pyAttr e3 "lon" with
      | .error er => .error er
      | .ok lonS =>
        match pyFloat lonS with
        | .error er => .error er
        | .ok lon =>
          match e3.children.find? (fun e4 => localName e4.tag == "ele") with
          | some e4 =>
            if u then
              match e4.text with
              | none => .error .typeError
              | some s =>
                match pyFloat s with
                | .error er => .error er
                | .ok z => .ok ⟨lat, lon, some z⟩
            else .ok ⟨lat, lon, none⟩
          | none => .ok ⟨lat, lon, none⟩

/-- Lines 140-157: the `for e3 in e2` loop building one `segment` list out
of the children whose local name is `trkpt`; other children are skipped. -/
def parseSegment (u : Bool) : BBox → List Xml → Except GpxError (List TrackPoint × BBox)
  | b, [] => .ok ([], b)
  | b, e3 :: rest =>
    if localName e3.tag = "trkpt" then
      match parseTrkpt u b e3 with
      | .error er => .error er
      | .ok (p, b1) =>
        match parseSegment u b1 rest with
        | .error er => .error er
        | .ok (ps, b2) => .ok (p :: ps, b2)
    else parseSegment u b rest

/-- Lines 138-158: the `for e2 in e1` loop over one `<trk>` element —
every child with local name `trkseg` appends one segment (possibly empty)
to `segments`; other children are skipped. -/
def parseTrk (u : Bool) : BBox → List Xml → Except GpxError (List (List TrackPoint) × BBox)
  | b, [] => .ok ([], b)
  | b, e2 :: rest =>
    if localName e2.tag = "trkseg" then
      match parseSegment u b e2.children with
      | .error er => .error er
      | .ok (seg, b1) =>
        match parseTrk u b1 rest with
        | .error er => .error er
        | .ok (segs, b2) => .ok (seg :: segs, b2)
    else parseTrk u b rest

/-- Lines 134-158: the `for e1 in gpx` loop — children of the root with
local name `trk` contribute their segments, in document order, to the one
flat `segments` list; other children are skipped. -/
def parseRoot (u : Bool) : BBox → List Xml → Except GpxError (List (List TrackPoint) × BBox)
  | b, [] => .ok ([], b)
  | b, e1 :: rest =>
    if localName e1.tag = "trk" then
      match parseTrk u b e1.children with
      | .error er => .error er
      | .ok (segs1, b1) =>
        match parseRoot u b1 rest with
        | .error er => .error er
        | .ok (segs2, b2) => .ok (segs1 ++ segs2, b2)
    else parseRoot u b rest

/-- The parsing part of `read_gpx_file` (lines 123-158): walk the root's
children starting from the sentinel extent. -/
def parseGpx (u : Bool) (gpx : Xml) : Except GpxError (List (List TrackPoint) × BBox) :=
  parseRoot u initBBox gpx.children

/-- The slice of the Blender scene the importer touches: the custom
properties `scene["lat"]` and `scene["lon"]` (lines 216-221). -/
structure Scene where
  storedLat : Option ℚ
  storedLon : Option ℚ
deriving DecidableEq, Repr

/-- `TransverseMercator(lat=lat, lon=lon)` (line 229): the projection object
is fully determined by its origin; its transcendental forward formula is
abstracted (see the header) as a parameter wherever points are projected. -/
structure TransverseMercator where
  lat : ℚ
  lon : ℚ
deriving DecidableEq, Repr

/-- Lines 213-230, `getProjection`: if the scene stores both `"lat"` and
`"lon"` and `ignoreGeoreferencing` is off, the stored origin replaces the
supplied one; otherwise the supplied origin is written into the scene.  The
projection is then constructed from the selected origin.  (The optional
`bpyproj` external provider of lines 224-225 is modelled as absent — spec §6
treats it as an optional host extension; the fallback of lines 226-229
always runs.) -/
def getProjection (ig : Bool) (scene : Scene) (lat lon : ℚ) : TransverseMercator × Scene :=
  if scene.storedLat.isSome && scene.storedLon.isSome && !ig then
    ({ lat := scene.storedLat.getD 0, lon := scene.storedLon.getD 0 }, scene)
  else
    ({ lat := lat, lon := lon }, { storedLat := some lat, storedLon := some lon })

/-- Lines 123-162, `read_gpx_file`: the input `doc` is the result of
`etree.parse(self.filepath).getroot()` (`.error .parseError` when the XML
is not well-formed).  On success of the parsing loops, `getProjection` is
invoked with the extent midpoints `(minLat+maxLat)/2`, `(minLon+maxLon)/2`
— the importer's only scene write.  Any exception raised earlier propagates
with the scene untouched. -/
def read_gpx_file (u ig : Bool) (doc : Except GpxError Xml) (scene : Scene) :
    Except GpxError (List (List TrackPoint) × TransverseMercator) × Scene :=
  match doc with
  | .error e => (.error e, scene)
  | .ok gpx =>
    match parseGpx u gpx with
    | .error e => (.error e, scene)
    | .ok (segments, b) =>
      let ps := getProjection ig scene ((b.minLat + b.maxLat) / 2) ((b.minLon + b.maxLon) / 2)
      (.ok (segments, ps.1), ps.2)

/-- A projected vertex `(x, y, z)` in scene units. -/
abbrev Point3 := ℚ × ℚ × ℚ

/-- Lines 173-174 and 201-202: project a parsed point with the chosen
projection and attach the z-coordinate
`point[2] if self.useElevation and len(point)==3 else 0` — the tuple has
length 3 exactly when `ele` is `some`. -/
def projectPoint (u : Bool) (proj : ℚ → ℚ → ℚ × ℚ) (p : TrackPoint) : Point3 :=
  let v := proj p.lat p.lon
  (v.1, v.2, if u && p.ele.isSome then p.ele.getD 0 else 0)

/-- The bmesh under construction: vertices in creation order (`bm.verts.new`)
and edges as pairs of vertex indices (`bm.edges.new([prevVertex, v])`). -/
structure BMesh where
  verts : List Point3
  edges : List (Nat × Nat)
deriving DecidableEq, Repr

/-- Lines 172-177, the inner loop body of `makeMesh`: create a vertex for
the point; if `prevVertex` is set, create the edge from it to the new
vertex; the new vertex becomes `prevVertex`. -/
def meshStep (u : Bool) (proj : ℚ → ℚ → ℚ × ℚ) (st : BMesh × Option Nat)
    (point : TrackPoint) : BMesh × Option Nat :=
  let idx := st.1.verts.length
  let edges1 := match st.2 with
    | some pv => st.1.edges ++ [(pv, idx)]
    | none => st.1.edges
  (⟨st.1.verts ++ [projectPoint u proj point], edges1⟩, some idx)

/-- Lines 170-177, `makeMesh`'s geometry loop: for every segment,
`prevVertex` is reset to `None`, then the points are added in order. -/
def makeMesh (u : Bool) (proj : ℚ → ℚ → ℚ × ℚ) (segments : List (List TrackPoint)) : BMesh :=
  segments.foldl (fun bm segment => (segment.foldl (meshStep u proj) (bm, none)).1) ⟨[], []⟩

/-- Lines 196-202, `makeCurve`'s geometry loop: for every segment (also an
empty one) `createSpline` appends a fresh POLY spline, and the segment's
points are written into it in order via `setSplinePoint`.  A spline is
modelled as the list of control points written into it; a freshly created
Blender POLY spline additionally owns one default control point, which for
an empty segment is never overwritten — a host detail that does not affect
the spline count. -/
def makeCurve (u : Bool) (proj : ℚ → ℚ → ℚ × ℚ) (segments : List (List TrackPoint)) :
    List (List Point3) :=
  segments.foldl
    (fun splines segment =>
      splines ++ [segment.foldl (fun spline point => spline ++ [projectPoint u proj point]) []])
    []

/-- Lines 83-121 and 188-211, `execute` in curve mode: `makeCurve` calls
`read_gpx_file`; a raised exception propagates out of `execute` and no
object is created (`none`).  On success `execute` unconditionally creates
the curve object and links it into the scene (`some splines`); the
operator never calls `self.report`, so no warning can be emitted anywhere
on this path. -/
def executeCurveImport (fromGeo : TransverseMercator → ℚ → ℚ → ℚ × ℚ) (u ig : Bool)
    (doc : Except GpxError Xml) (scene : Scene) : Option (List (List Point3)) × Scene :=
  match read_gpx_file u ig doc scene with
  | (.error _, s) => (none, s)
  | (.ok (segments, projection), s) => (some (makeCurve u (fromGeo projection) segments), s)

/-! ### Derived, spec-side notions used to state the claims -/

/-- The `<trkpt>` elements of a document, grouped per `<trkseg>` in document
order, with the segments of all `<trk>` elements flattened into one list —
the document-order reference against which the parser's output is compared. -/
def docSegs (gpx : Xml) : List (List Xml) :=
  (gpx.children.filter (fun e => localName e.tag = "trk")).flatMap
    (fun t => (t.children.filter (fun e => localName e.tag = "trkseg")).map
      (fun sg => sg.children.filter (fun e => localName e.tag = "trkpt")))

/-- The edges `makeMesh` creates for one segment of `n` points whose
vertices occupy indices `start, start+1, …`, given the incoming
`prevVertex`: an edge from `prevVertex` (when set) to the first new vertex,
then one edge between each pair of consecutive new vertices. -/
def linkEdges : Option Nat → Nat → Nat → List (Nat × Nat)
  | _, _, 0 => []
  | none, start, n + 1 => linkEdges (some start) (start + 1) n
  | some pv, start, n + 1 => (pv, start) :: linkEdges (some start) (start + 1) n

/-- All edges `makeMesh` creates, segment blocks laid out consecutively
from `start`; each segment starts with `prevVertex = None`. -/
def expectedEdges : List (List TrackPoint) → Nat → List (Nat × Nat)
  | [], _ => []
  | seg :: rest, start => linkEdges none start seg.length ++ expectedEdges rest (start + seg.length)

/-- Which segment a flattened vertex index belongs to. -/
def vertexSeg : List (List TrackPoint) → Nat → Nat
  | [], _ => 0
  | seg :: rest, v => if v < seg.length then 0 else vertexSeg rest (v - seg.length) + 1

/-- Number of point-chains of a built mesh, counted as `V − E`: the mesh's
edges form vertex-disjoint consecutive-index paths (proved in the
segment-isolation theorem below), and a disjoint union of simple paths has
exactly `V − E` connected polyline components. -/
def meshChainCount (bm : BMesh) : Nat := bm.verts.length - bm.edges.length

/-- Number of non-empty segments. -/
def countNonEmpty (segments : List (List TrackPoint)) : Nat :=
  (segments.filter (fun s => !s.isEmpty)).length

/-- Wrap a tag in a namespace the way `xml.etree` renders it:
`{uri}tag`. -/
def nsWrap (ns tag : String) : String := "\x7b" ++ ns ++ "\x7d" ++ tag

/-- Qualify every tag with namespace `ns` down to the given depth (the
parser inspects tags four levels below the root; depth `5` from the root
covers everything it can see). -/
def addNsDepth (ns : String) : Nat → Xml → Xml
  | 0, e => e
  | n + 1, .elem t a x c => .elem (nsWrap ns t) a x (c.map (addNsDepth ns n))

/-- `true` when the string contains no closing curly bracket. -/
def noBrace (s : String) : Bool := s.data.all (fun c => c != '\x7d')

/-- All tags down to the given depth are free of closing curly brackets
(i.e. the document is not yet namespace-qualified). -/
def tagsClean : Nat → Xml → Bool
  | 0, _ => true
  | n + 1, .elem t _ _ c => noBrace t && c.all (tagsClean n)

/-! ### Concrete values used by counterexamples and witnesses -/

/-- Stand-in planar projection for evaluating witnesses (the theorems
quantify over the projection function). -/
def sampleProj (lat lon : ℚ) : ℚ × ℚ := (lon, lat)

/-- Stand-in for the abstracted transverse-Mercator forward formula. -/
def sampleFromGeo (tm : TransverseMercator) (lat lon : ℚ) : ℚ × ℚ :=
  (lon - tm.lon, lat - tm.lat)

/-- `<trkpt lat="1.0" lon="2.0"/>` -/
def trkptA : Xml := .elem "trkpt" [("lat", "1.0"), ("lon", "2.0")] none []

/-- A document with one `<trk>` holding an empty `<trkseg>` followed by a
one-point `<trkseg>`. -/
def docEmptySeg : Xml :=
  .elem "gpx" [] none
    [.elem "trk" [] none [.elem "trkseg" [] none [], .elem "trkseg" [] none [trkptA]]]

/-- A malformed `<trkpt lat="1.0"/>` — the `lon` attribute is missing. -/
def trkptNoLon : Xml := .elem "trkpt" [("lat", "1.0")] none []

/-- A document whose only `<trkpt>` is missing its `lon` attribute. -/
def docNoLon : Xml :=
  .elem "gpx" [] none [.elem "trk" [] none [.elem "trkseg" [] none [trkptNoLon]]]

/-- The empty well-formed document `<gpx></gpx>`. -/
def docEmpty : Xml := .elem "gpx" [] none []

/-- `<trkpt lat="40.0" lon="-105.0"><ele>1600</ele></trkpt>` -/
def trkptEle : Xml :=
  .elem "trkpt" [("lat", "40.0"), ("lon", "-105.0")] none
    [.elem "ele" [] (some "1600") []]

/-- `<trkpt lat="40.0005" lon="-105.0"/>` (no elevation child). -/
def trkptNoEle : Xml := .elem "trkpt" [("lat", "40.0005"), ("lon", "-105.0")] none []

/-- A two-point document used by order/elevation witnesses. -/
def docTwoPts : Xml :=
  .elem "gpx" [] none [.elem "trk" [] none [.elem "trkseg" [] none [trkptEle, trkptNoEle]]]

/-- The "avoids creating a degenerate/empty scene object" conjunct of the
empty-document scenario, instantiated at `<gpx></gpx>` on a fresh scene:
the import must not produce a created-and-linked curve object with zero
written splines (`some []` is exactly such an object). -/
def claimC6EmptyObjectAvoided (fromGeo : TransverseMercator → ℚ → ℚ → ℚ × ℚ) : Prop :=
  (executeCurveImport fromGeo true false (.ok docEmpty) ⟨none, none⟩).1 ≠ some []

/-! ### Helper lemmas: curve and mesh characterization -/

theorem foldl_push {α β : Type} (f : α → β) (l : List α) :
    ∀ acc : List β, l.foldl (fun a x => a ++ [f x]) acc = acc ++ l.map f := by
  induction l with
  | nil => intro acc; simp
  | cons x l ih => intro acc; simp [List.foldl_cons, ih]

theorem makeCurve_aux (u : Bool) (proj : ℚ → ℚ → ℚ × ℚ) (segments : List (List TrackPoint)) :
    ∀ acc : List (List Point3),
      List.foldl (fun splines segment =>
          splines ++
            [List.foldl (fun spline point => spline ++ [projectPoint u proj point]) [] segment])
        acc segments
        = acc ++ segments.map (fun s => s.map (projectPoint u proj)) := by
  induction segments with
  | nil => intro acc; simp
  | cons s rest ih =>
    intro acc
    rw [List.foldl_cons, ih]
    rw [foldl_push (projectPoint u proj) s []]
    simp

theorem makeCurve_eq_map (u : Bool) (proj : ℚ → ℚ → ℚ × ℚ)
    (segments : List (List TrackPoint)) :
    makeCurve u proj segments = segments.map (fun s => s.map (projectPoint u proj)) := by
  unfold makeCurve
  rw [makeCurve_aux]
  simp

theorem meshFoldSeg (u : Bool) (proj : ℚ → ℚ → ℚ × ℚ) (seg : List TrackPoint) :
    ∀ (bm : BMesh) (prev : Option Nat),
      seg.foldl (meshStep u proj) (bm, prev) =
        (⟨bm.verts ++ seg.map (projectPoint u proj),
          bm.edges ++ linkEdges prev bm.verts.length seg.length⟩,
         if seg.length = 0 then prev else some (bm.verts.length + seg.length - 1)) := by
  induction seg with
  | nil =>
    intro bm prev
    simp only [List.foldl_nil, List.map_nil, List.append_nil, List.length_nil, if_pos rfl]
    rw [show linkEdges prev bm.verts.length 0 = [] from by cases prev <;> rfl]
    simp
  | cons p rest ih =>
    intro bm prev
    rw [List.foldl_cons]
    rw [show meshStep u proj (bm, prev) p =
        (⟨bm.verts ++ [projectPoint u proj p],
          (match prev with
           | some pv => bm.edges ++ [(pv, bm.verts.length)]
           | none => bm.edges)⟩, some bm.verts.length) from rfl]
    rw [ih]
    simp only [Prod.mk.injEq, BMesh.mk.injEq, List.length_append, List.length_cons,
      List.length_nil, List.length_map, List.map_cons, Nat.zero_add]
    refine ⟨⟨?_, ?_⟩, ?_⟩
    · simp
    · cases prev with
      | none =>
        show bm.edges ++ linkEdges (some bm.verts.length) (bm.verts.length + 1) rest.length =
          bm.edges ++ linkEdges none bm.verts.length (rest.length + 1)
        rfl
      | some pv =>
        show (bm.edges ++ [(pv, bm.verts.length)]) ++
            linkEdges (some bm.verts.length) (bm.verts.length + 1) rest.length =
          bm.edges ++ linkEdges (some pv) bm.verts.length (rest.length + 1)
        rw [List.append_assoc]
        rfl
    · have hne : rest.length + 1 ≠ 0 := Nat.succ_ne_zero _
      rw [if_neg hne]
      by_cases h0 : rest.length = 0
      · rw [if_pos h0, h0]
        congr 1
      · rw [if_neg h0]
        congr 1
        omega

theorem makeMesh_aux (u : Bool) (proj : ℚ → ℚ → ℚ × ℚ) (segments : List (List TrackPoint)) :
    ∀ bm : BMesh,
      segments.foldl (fun bm segment => (segment.foldl (meshStep u proj) (bm, none)).1) bm =
        ⟨bm.verts ++ segments.flatten.map (projectPoint u proj),
         bm.edges ++ expectedEdges segments bm.verts.length⟩ := by
  induction segments with
  | nil =>
    intro bm
    simp only [List.foldl_nil, List.flatten_nil, List.map_nil, List.append_nil, expectedEdges]
  | cons s rest ih =>
    intro bm
    rw [List.foldl_cons, meshFoldSeg]
    dsimp only
    rw [ih]
    simp only [BMesh.mk.injEq, List.length_append, List.length_map]
    constructor
    · simp
    · show (bm.edges ++ linkEdges none bm.verts.length s.length) ++
          expectedEdges rest (bm.verts.length + s.length) =
        bm.edges ++ expectedEdges (s :: rest) bm.verts.length
      rw [List.append_assoc]
      rfl

theorem makeMesh_eq (u : Bool) (proj : ℚ → ℚ → ℚ × ℚ) (segments : List (List TrackPoint)) :
    makeMesh u proj segments =
      ⟨segments.flatten.map (projectPoint u proj), expectedEdges segments 0⟩ := by
  unfold makeMesh
  rw [makeMesh_aux]
  rfl

theorem linkEdges_some_length (n : Nat) : ∀ pv start, (linkEdges (some pv) start n).length = n := by
  induction n with
  | zero => intro pv start; rfl
  | succ n ih => intro pv start; simp [linkEdges, ih]

theorem linkEdges_none_length (n : Nat) (start : Nat) :
    (linkEdges none start n).length = n - 1 := by
  cases n with
  | zero => rfl
  | succ n => simp [linkEdges, linkEdges_some_length]

theorem countNonEmpty_cons (s : List TrackPoint) (rest : List (List TrackPoint)) :
    countNonEmpty (s :: rest) = (if s.isEmpty then 0 else 1) + countNonEmpty rest := by
  unfold countNonEmpty
  rw [List.filter_cons]
  by_cases hs : s.isEmpty
  · simp [hs]
  · simp [hs]
    omega

theorem expectedEdges_length (segments : List (List TrackPoint)) :
    ∀ start, (expectedEdges segments start).length + countNonEmpty segments =
      segments.flatten.length := by
  induction segments with
  | nil => intro start; simp [expectedEdges, countNonEmpty]
  | cons s rest ih =>
    intro start
    have h := ih (start + s.length)
    have hiff : s.isEmpty = true ↔ s.length = 0 := by cases s <;> simp
    show (expectedEdges (s :: rest) start).length + countNonEmpty (s :: rest) = _
    rw [show expectedEdges (s :: rest) start =
        linkEdges none start s.length ++ expectedEdges rest (start + s.length) from rfl]
    rw [List.length_append, linkEdges_none_length, countNonEmpty_cons, List.flatten_cons,
      List.length_append]
    by_cases h0 : s.isEmpty
    · have hz : s.length = 0 := hiff.mp h0
      rw [if_pos h0]
      omega
    · have hz : s.length ≠ 0 := fun hh => h0 (hiff.mpr hh)
      rw [if_neg h0]
      omega

theorem linkEdges_some_mem (n : Nat) :
    ∀ pv start e, e ∈ linkEdges (some pv) start n →
      (e = (pv, start) ∧ 0 < n) ∨ (start ≤ e.1 ∧ e.2 = e.1 + 1 ∧ e.2 < start + n) := by
  induction n with
  | zero => intro pv start e h; cases h
  | succ n ih =>
    intro pv start e h
    rw [show linkEdges (some pv) start (n + 1) =
        (pv, start) :: linkEdges (some start) (start + 1) n from rfl] at h
    rcases List.mem_cons.mp h with h | h
    · exact Or.inl ⟨h, Nat.succ_pos n⟩
    · rcases ih start (start + 1) e h with ⟨he, hn⟩ | ⟨h1, h2, h3⟩
      · subst he
        exact Or.inr ⟨Nat.le_refl _, rfl, by omega⟩
      · exact Or.inr ⟨by omega, h2, by omega⟩

theorem linkEdges_none_mem (n start : Nat) (e : Nat × Nat) (h : e ∈ linkEdges none start n) :
    start ≤ e.1 ∧ e.2 = e.1 + 1 ∧ e.2 < start + n := by
  cases n with
  | zero => cases h
  | succ n =>
    rw [show linkEdges none start (n + 1) = linkEdges (some start) (start + 1) n from rfl] at h
    rcases linkEdges_some_mem n start (start + 1) e h with ⟨he, hn⟩ | ⟨h1, h2, h3⟩
    · subst he
      exact ⟨Nat.le_refl _, rfl, by omega⟩
    · exact ⟨by omega, h2, by omega⟩

theorem expectedEdges_mem (segments : List (List TrackPoint)) :
    ∀ start e, e ∈ expectedEdges segments start →
      start ≤ e.1 ∧ e.2 = e.1 + 1 ∧
      vertexSeg segments (e.1 - start) = vertexSeg segments (e.2 - start) := by
  induction segments with
  | nil => intro start e h; cases h
  | cons s rest ih =>
    intro start e h
    rw [show expectedEdges (s :: rest) start =
        linkEdges none start s.length ++ expectedEdges rest (start + s.length) from rfl] at h
    rcases List.mem_append.mp h with h | h
    · obtain ⟨h1, h2, h3⟩ := linkEdges_none_mem s.length start e h
      refine ⟨h1, h2, ?_⟩
      have ha : e.1 - start < s.length := by omega
      have hb : e.2 - start < s.length := by omega
      rw [show vertexSeg (s :: rest) (e.1 - start) = 0 from by simp [vertexSeg, ha]]
      rw [show vertexSeg (s :: rest) (e.2 - start) = 0 from by simp [vertexSeg, hb]]
    · obtain ⟨h1, h2, h3⟩ := ih (start + s.length) e h
      refine ⟨by omega, h2, ?_⟩
      have ha : ¬ e.1 - start < s.length := by omega
      have hb : ¬ e.2 - start < s.length := by omega
      rw [show vertexSeg (s :: rest) (e.1 - start) =
          vertexSeg rest (e.1 - start - s.length) + 1 from by simp [vertexSeg, ha]]
      rw [show vertexSeg (s :: rest) (e.2 - start) =
          vertexSeg rest (e.2 - start - s.length) + 1 from by simp [vertexSeg, hb]]
      rw [show e.1 - start - s.length = e.1 - (start + s.length) from by omega]
      rw [show e.2 - start - s.length = e.2 - (start + s.length) from by omega]
      rw [h3]

/-! ### Helper lemmas: concrete evaluation

Rational division does not reduce in the kernel (its normalization runs
through well-founded `Nat.gcd`), so concrete runs of the parser are
evaluated in two steps: a definitional step up to the un-normalized
rational expression, then `norm_num`. -/

theorem parseFloat_one : parseFloat "1.0" = some 1 := by
  rw [show parseFloat "1.0" = some (1 * ((digitsToNat ['1', '0'] : ℕ) : ℚ) / 10 ^ 1) from rfl]
  rw [show digitsToNat ['1', '0'] = 10 from rfl]
  norm_num

theorem parseFloat_two : parseFloat "2.0" = some 2 := by
  rw [show parseFloat "2.0" = some (1 * ((digitsToNat ['2', '0'] : ℕ) : ℚ) / 10 ^ 1) from rfl]
  rw [show digitsToNat ['2', '0'] = 20 from rfl]
  norm_num

theorem parseFloat_forty : parseFloat "40.0" = some 40 := by
  rw [show parseFloat "40.0" =
    some (1 * ((digitsToNat ['4', '0', '0'] : ℕ) : ℚ) / 10 ^ 1) from rfl]
  rw [show digitsToNat ['4', '0', '0'] = 400 from rfl]
  norm_num

theorem parseFloat_neg105 : parseFloat "-105.0" = some (-105) := by
  rw [show parseFloat "-105.0" =
    some (-1 * ((digitsToNat ['1', '0', '5', '0'] : ℕ) : ℚ) / 10 ^ 1) from rfl]
  rw [show digitsToNat ['1', '0', '5', '0'] = 1050 from rfl]
  norm_num

theorem parseFloat_1600 : parseFloat "1600" = some 1600 := by
  rw [show parseFloat "1600" =
    some (1 * ((digitsToNat ['1', '6', '0', '0'] : ℕ) : ℚ) / 10 ^ 0) from rfl]
  rw [show digitsToNat ['1', '6', '0', '0'] = 1600 from rfl]
  norm_num

theorem parseFloat_405 : parseFloat "40.0005" = some (80001 / 2000) := by
  rw [show parseFloat "40.0005" =
    some (1 * ((digitsToNat ['4', '0', '0', '0', '0', '5'] : ℕ) : ℚ) / 10 ^ 4) from rfl]
  rw [show digitsToNat ['4', '0', '0', '0', '0', '5'] = 400005 from rfl]
  norm_num

theorem read_gpx_file_ok (u ig : Bool) (gpx : Xml) (scene : Scene)
    (segs : List (List TrackPoint)) (b : BBox) (h : parseGpx u gpx = .ok (segs, b)) :
    read_gpx_file u ig (.ok gpx) scene =
      (.ok (segs, (getProjection ig scene ((b.minLat + b.maxLat) / 2)
          ((b.minLon + b.maxLon) / 2)).1),
       (getProjection ig scene ((b.minLat + b.maxLat) / 2) ((b.minLon + b.maxLon) / 2)).2) := by
  simp only [read_gpx_file, h]

theorem read_gpx_file_err (u ig : Bool) (gpx : Xml) (scene : Scene) (er : GpxError)
    (h : parseGpx u gpx = .error er) :
    read_gpx_file u ig (.ok gpx) scene = (.error er, scene) := by
  simp only [read_gpx_file, h]

theorem parseGpx_docEmptySeg :
    parseGpx true docEmptySeg = .ok ([[], [⟨1, 2, none⟩]], ⟨1, -90, 2, -180⟩) := by
  have hbb : bboxUpdate initBBox 1 2 = ⟨1, -90, 2, -180⟩ := by decide
  simp [parseGpx, docEmptySeg, parseRoot, parseTrk, parseSegment, parseTrkpt, pyAttr, pyFloat,
    parseFloat_one, parseFloat_two, trkptA, Xml.children, Xml.tag, Xml.attrib, localName,
    dropThroughBrace, List.lookup, hbb]

/-! ### Claim C1 -/

/-- Claim C1, counterexample.  The parsed document `docEmptySeg` has two
track segments, one empty and one with a single point, so exactly one
non-empty segment — but `makeCurve` produces two splines, because
`createSpline()` runs for every segment, empty ones included.  (The
projection origin also shows the `elif` extent bug: `maxLat` stays at the
`-90` sentinel.) -/
theorem curve_spline_count_cex :
    (read_gpx_file true false (.ok docEmptySeg) ⟨none, none⟩).1
      = .ok ([[], [⟨1, 2, none⟩]], ⟨(-89 : ℚ)/2, -89⟩) ∧
    (makeCurve true sampleProj [[], [⟨1, 2, none⟩]]).length = 2 ∧
    countNonEmpty [[], [⟨1, 2, none⟩]] = 1 ∧ (2 : Nat) ≠ 1 := by
  refine ⟨?_, rfl, rfl, by decide⟩
  rw [read_gpx_file_ok true false docEmptySeg ⟨none, none⟩ _ _ parseGpx_docEmptySeg]
  simp [getProjection]
  norm_num

/-- Claim C1 (amended): the number of curve splines produced by `makeCurve`
equals the TOTAL number of track segments — empty segments are not skipped,
each yields a (degenerate) spline — while in mesh mode empty segments
really contribute nothing: the number of polyline chains of the mesh built
by `makeMesh` (as vertex count minus edge count, which for the mesh's
disjoint-path edge structure is the component count) equals the number of
non-empty segments. -/
theorem chain_counts_amended (u : Bool) (proj : ℚ → ℚ → ℚ × ℚ)
    (segments : List (List TrackPoint)) :
    (makeCurve u proj segments).length = segments.length ∧
    meshChainCount (makeMesh u proj segments) = countNonEmpty segments := by
  constructor
  · rw [makeCurve_eq_map]
    simp
  · rw [makeMesh_eq]
    show (segments.flatten.map (projectPoint u proj)).length -
      (expectedEdges segments 0).length = countNonEmpty segments
    rw [List.length_map]
    have h := expectedEdges_length segments 0
    omega

/-! ### Claim C8 -/

/-- Claim C8: segment isolation.  Every edge of the mesh built by
`makeMesh` joins a vertex to the next vertex of the same segment block —
in particular no edge joins the last point of one segment to the first
point of another (`prevVertex` is reset at each segment start) — and in
curve mode every segment becomes its own spline holding exactly its own
projected points, so no spline continues across a segment boundary. -/
theorem segment_isolation (u : Bool) (proj : ℚ → ℚ → ℚ × ℚ)
    (segments : List (List TrackPoint)) (e : Nat × Nat)
    (he : e ∈ (makeMesh u proj segments).edges) :
    vertexSeg segments e.1 = vertexSeg segments e.2 ∧ e.2 = e.1 + 1 ∧
    makeCurve u proj segments = segments.map (fun s => s.map (projectPoint u proj)) := by
  rw [makeMesh_eq] at he
  have h := expectedEdges_mem segments 0 e he
  refine ⟨?_, h.2.1, makeCurve_eq_map u proj segments⟩
  have h3 := h.2.2
  simpa using h3

/-- Claim C8, witness: a concrete two-segment track; the only edge of the
mesh is `(0, 1)`, inside the first segment's block. -/
theorem segment_isolation_witness :
    ((0, 1) ∈ (makeMesh true sampleProj
        [[⟨40, -105, none⟩, ⟨41, -105, none⟩], [⟨42, -105, none⟩]]).edges) ∧
    vertexSeg [[⟨40, -105, none⟩, ⟨41, -105, none⟩], [⟨42, -105, none⟩]] 0 =
      vertexSeg [[⟨40, -105, none⟩, ⟨41, -105, none⟩], [⟨42, -105, none⟩]] 1 := by
  have hm : ((0, 1) : Nat × Nat) ∈ (makeMesh true sampleProj
      [[⟨40, -105, none⟩, ⟨41, -105, none⟩], [⟨42, -105, none⟩]]).edges := by
    rw [show (makeMesh true sampleProj
        [[⟨40, -105, none⟩, ⟨41, -105, none⟩], [⟨42, -105, none⟩]]).edges
      = [(0, 1)] from rfl]
    exact List.mem_singleton.mpr rfl
  exact ⟨hm, (segment_isolation true sampleProj
    [[⟨40, -105, none⟩, ⟨41, -105, none⟩], [⟨42, -105, none⟩]] (0, 1) hm).1⟩

/-! ### Claim C2 -/

theorem bboxRel_step (b1 b2 : BBox) (lat lon : ℚ)
    (h1 : b1.minLat = b2.minLat) (h2 : b1.minLon = b2.minLon)
    (h3 : b1.maxLat ≤ b2.maxLat) (h4 : b1.maxLon ≤ b2.maxLon) :
    (bboxUpdate b1 lat lon).minLat = (specBBoxUpdate b2 lat lon).minLat ∧
    (bboxUpdate b1 lat lon).minLon = (specBBoxUpdate b2 lat lon).minLon ∧
    (bboxUpdate b1 lat lon).maxLat ≤ (specBBoxUpdate b2 lat lon).maxLat ∧
    (bboxUpdate b1 lat lon).maxLon ≤ (specBBoxUpdate b2 lat lon).maxLon := by
  unfold bboxUpdate specBBoxUpdate
  dsimp only
  split_ifs <;>
    refine ⟨?_, ?_, ?_, ?_⟩ <;>
    simp_all [min_def, max_def] <;>
    split_ifs <;>
    linarith

theorem bboxRel_foldl (pts : List (ℚ × ℚ)) :
    ∀ b1 b2 : BBox,
      b1.minLat = b2.minLat → b1.minLon = b2.minLon →
      b1.maxLat ≤ b2.maxLat → b1.maxLon ≤ b2.maxLon →
      (pts.foldl (fun b p => bboxUpdate b p.1 p.2) b1).minLat =
        (pts.foldl (fun b p => specBBoxUpdate b p.1 p.2) b2).minLat ∧
      (pts.foldl (fun b p => bboxUpdate b p.1 p.2) b1).minLon =
        (pts.foldl (fun b p => specBBoxUpdate b p.1 p.2) b2).minLon ∧
      (pts.foldl (fun b p => bboxUpdate b p.1 p.2) b1).maxLat ≤
        (pts.foldl (fun b p => specBBoxUpdate b p.1 p.2) b2).maxLat ∧
      (pts.foldl (fun b p => bboxUpdate b p.1 p.2) b1).maxLon ≤
        (pts.foldl (fun b p => specBBoxUpdate b p.1 p.2) b2).maxLon := by
  induction pts with
  | nil => intro b1 b2 h1 h2 h3 h4; exact ⟨h1, h2, h3, h4⟩
  | cons p rest ih =>
    intro b1 b2 h1 h2 h3 h4
    rw [List.foldl_cons, List.foldl_cons]
    obtain ⟨g1, g2, g3, g4⟩ := bboxRel_step b1 b2 p.1 p.2 h1 h2 h3 h4
    exact ih _ _ g1 g2 g3 g4

/-- Claim C2, counterexample.  Already for the single point
(lat 50, lon 0) the `if`/`elif` update differs from plain min/max tracking
from the sentinel extremes: the point lowers `minLat` (50 < 90), so the
`elif` never examines `maxLat`, which keeps its sentinel value `-90`
(likewise `maxLon` keeps `-180`), while plain tracking yields
`maxLat = 50`, `maxLon = 0`. -/
theorem bbox_elif_cex :
    List.foldl (fun b (p : ℚ × ℚ) => bboxUpdate b p.1 p.2) initBBox [(50, 0)] =
      ⟨50, -90, 0, -180⟩ ∧
    List.foldl (fun b (p : ℚ × ℚ) => specBBoxUpdate b p.1 p.2) initBBox [(50, 0)] =
      ⟨50, 50, 0, 0⟩ ∧
    List.foldl (fun b (p : ℚ × ℚ) => bboxUpdate b p.1 p.2) initBBox [(50, 0)] ≠
      List.foldl (fun b (p : ℚ × ℚ) => specBBoxUpdate b p.1 p.2) initBBox [(50, 0)] := by
  exact ⟨by decide, by decide, by decide⟩

/-- Claim C2 (amended): over any sequence of points, the `if`/`elif` update
of `read_gpx_file` computes the same `minLat` and `minLon` as plain
independent min/max tracking from the sentinel extremes, but its `maxLat`
and `maxLon` are only bounded above by the true maxima — whenever a point
lowers the running minimum its max check is skipped, so the computed
maximum can stay strictly below the true one (the counterexample).  The
chaining is therefore not benign. -/
theorem bbox_elif_amended (pts : List (ℚ × ℚ)) :
    (pts.foldl (fun b p => bboxUpdate b p.1 p.2) initBBox).minLat =
      (pts.foldl (fun b p => specBBoxUpdate b p.1 p.2) initBBox).minLat ∧
    (pts.foldl (fun b p => bboxUpdate b p.1 p.2) initBBox).minLon =
      (pts.foldl (fun b p => specBBoxUpdate b p.1 p.2) initBBox).minLon ∧
    (pts.foldl (fun b p => bboxUpdate b p.1 p.2) initBBox).maxLat ≤
      (pts.foldl (fun b p => specBBoxUpdate b p.1 p.2) initBBox).maxLat ∧
    (pts.foldl (fun b p => bboxUpdate b p.1 p.2) initBBox).maxLon ≤
      (pts.foldl (fun b p => specBBoxUpdate b p.1 p.2) initBBox).maxLon :=
  bboxRel_foldl pts initBBox initBBox rfl rfl le_rfl le_rfl

/-! ### Claim C3 -/

theorem pyFloat_ok {s : String} {z : ℚ} (h : pyFloat s = .ok z) : parseFloat s = some z := by
  unfold pyFloat at h
  cases hp : parseFloat s with
  | none => rw [hp] at h; simp at h
  | some q => rw [hp] at h; simp only [Except.ok.injEq] at h; rw [h]

theorem parseTrkpt_eq_pure (u : Bool) (b : BBox) (e3 : Xml) :
    parseTrkpt u b e3 =
      (parsePointPure u e3).map (fun p => (p, bboxUpdate b p.lat p.lon)) := by
  unfold parseTrkpt parsePointPure
  cases pyAttr e3 "lat" with
  | error er => rfl
  | ok latS =>
    dsimp only
    cases pyFloat latS with
    | error er => rfl
    | ok lat =>
      dsimp only
      cases pyAttr e3 "lon" with
      | error er => rfl
      | ok lonS =>
        dsimp only
        cases pyFloat lonS with
        | error er => rfl
        | ok lon =>
          dsimp only
          cases e3.children.find? (fun e4 => localName e4.tag == "ele") with
          | none => rfl
          | some e4 =>
            dsimp only
            cases u with
            | false => rfl
            | true =>
              rw [if_pos rfl, if_pos rfl]
              cases e4.text with
              | none => rfl
              | some s =>
                dsimp only
                cases pyFloat s with
                | error er => rfl
                | ok z => rfl

theorem elevation_toggle (u : Bool) (proj : ℚ → ℚ → ℚ × ℚ) (e3 : Xml) (b b' : BBox)
    (p : TrackPoint) (h : parseTrkpt u b e3 = .ok (p, b')) :
    (u = false → (projectPoint u proj p).2.2 = 0) ∧
    (u = true → ∀ e4, e3.children.find? (fun c => localName c.tag == "ele") = some e4 →
        ∃ t, e4.text = some t ∧ parseFloat t = some ((projectPoint u proj p).2.2)) ∧
    (u = true → e3.children.find? (fun c => localName c.tag == "ele") = none →
        (projectPoint u proj p).2.2 = 0) := by
  unfold parseTrkpt at h
  cases hA : pyAttr e3 "lat" with
  | error er => rw [hA] at h; dsimp only at h; simp at h
  | ok latS =>
    rw [hA] at h
    dsimp only at h
    cases hB : pyFloat latS with
    | error er => rw [hB] at h; simp at h
    | ok lat =>
      rw [hB] at h
      dsimp only at h
      cases hC : pyAttr e3 "lon" with
      | error er => rw [hC] at h; simp at h
      | ok lonS =>
        rw [hC] at h
        dsimp only at h
        cases hD : pyFloat lonS with
        | error er => rw [hD] at h; simp at h
        | ok lon =>
          rw [hD] at h
          dsimp only at h
          cases hF : e3.children.find? (fun e4 => localName e4.tag == "ele") with
          | none =>
            rw [hF] at h
            dsimp only at h
            simp only [Except.ok.injEq, Prod.mk.injEq] at h
            obtain ⟨hp, hb⟩ := h
            subst hp
            refine ⟨fun _ => by simp [projectPoint], fun _ e4 hfind => ?_, fun _ _ => ?_⟩
            · simp at hfind
            · simp [projectPoint]
          | some e4 =>
            rw [hF] at h
            dsimp only at h
            cases u with
            | false =>
              simp only [Bool.false_eq_true, if_false, Except.ok.injEq, Prod.mk.injEq] at h
              obtain ⟨hp, hb⟩ := h
              subst hp
              refine ⟨fun _ => by simp [projectPoint], fun hu => by simp at hu,
                fun hu => by simp at hu⟩
            | true =>
              rw [if_pos rfl] at h
              cases hT : e4.text with
              | none => rw [hT] at h; simp at h
              | some s =>
                rw [hT] at h
                dsimp only at h
                cases hZ : pyFloat s with
                | error er => rw [hZ] at h; simp at h
                | ok z =>
                  rw [hZ] at h
                  dsimp only at h
                  simp only [Except.ok.injEq, Prod.mk.injEq] at h
                  obtain ⟨hp, hb⟩ := h
                  subst hp
                  refine ⟨fun hu => by simp at hu, fun _ e4' hfind' => ?_,
                    fun _ hnone => by simp at hnone⟩
                  simp only [Option.some.injEq] at hfind'
                  subst hfind'
                  refine ⟨s, hT, ?_⟩
                  rw [pyFloat_ok hZ]
                  simp [projectPoint]

theorem parseTrkpt_trkptEle :
    parseTrkpt true initBBox trkptEle = .ok (⟨40, -105, some 1600⟩, ⟨40, -90, -105, -180⟩) := by
  have hbb : bboxUpdate initBBox 40 (-105) = ⟨40, -90, -105, -180⟩ := by decide
  simp [parseTrkpt, pyAttr, pyFloat, parseFloat_forty, parseFloat_neg105, parseFloat_1600,
    trkptEle, Xml.children, Xml.tag, Xml.attrib, Xml.text, localName, dropThroughBrace,
    List.lookup, hbb]

/-- Claim C3, witness: the point of `trkptEle` (with `useElevation` on and
an `<ele>1600</ele>` child) projects with z equal to the parsed elevation. -/
theorem elevation_toggle_witness :
    parseTrkpt true initBBox trkptEle = .ok (⟨40, -105, some 1600⟩, ⟨40, -90, -105, -180⟩) ∧
    ∃ t, (Xml.elem "ele" [] (some "1600") []).text = some t ∧
      parseFloat t = some ((projectPoint true sampleProj ⟨40, -105, some 1600⟩).2.2) := by
  refine ⟨parseTrkpt_trkptEle, ?_⟩
  exact (elevation_toggle true sampleProj trkptEle initBBox _ _ parseTrkpt_trkptEle).2.1 rfl
    (Xml.elem "ele" [] (some "1600") []) rfl

/-! ### Claim C4 -/

/-- Claim C4: origin resolution.  First conjunct: when the destination
scene stores both coordinates and the override is off, `getProjection`
returns the stored origin verbatim and leaves the scene unchanged —
whatever freshly computed center is supplied is discarded.  Second
conjunct: in every other configuration the supplied origin is used and
persisted into the scene.  Third conjunct: a second import into the
resulting scene without `ignoreGeoreferencing` yields exactly the first
import's projection, whatever center it computes, and changes nothing. -/
theorem origin_resolution (ig : Bool) (s : Scene) (lat lon : ℚ) :
    (∀ a b, s.storedLat = some a → s.storedLon = some b →
        getProjection false s lat lon = (⟨a, b⟩, s)) ∧
    ((s.storedLat.isSome && s.storedLon.isSome && !ig) = false →
        getProjection ig s lat lon = (⟨lat, lon⟩, ⟨some lat, some lon⟩)) ∧
    (∀ lat2 lon2,
        getProjection false (getProjection ig s lat lon).2 lat2 lon2
          = ((getProjection ig s lat lon).1, (getProjection ig s lat lon).2)) := by
  obtain ⟨sl, so⟩ := s
  refine ⟨?_, ?_, ?_⟩
  · intro a b ha hb
    simp only [Scene.storedLat] at ha
    simp only [Scene.storedLon] at hb
    subst ha
    subst hb
    simp [getProjection]
  · intro h
    cases sl <;> cases so <;> cases ig <;> simp_all [getProjection]
  · intro lat2 lon2
    cases sl <;> cases so <;> cases ig <;> simp [getProjection]

/-- Claim C4, witness: a scene with stored origin (1, 2) makes the first
conjunct of the origin-resolution theorem concrete. -/
theorem origin_resolution_witness :
    (⟨some 1, some 2⟩ : Scene).storedLat = some 1 ∧
    (⟨some 1, some 2⟩ : Scene).storedLon = some 2 ∧
    getProjection false ⟨some 1, some 2⟩ 3 4 = (⟨1, 2⟩, ⟨some 1, some 2⟩) :=
  ⟨rfl, rfl, (origin_resolution false ⟨some 1, some 2⟩ 3 4).1 1 2 rfl rfl⟩

theorem ok_bind {ε α β : Type} (a : α) (f : α → Except ε β) :
    (Except.ok a >>= f) = f a := rfl

theorem error_bind {ε α β : Type} (e : ε) (f : α → Except ε β) :
    (Except.error e >>= f : Except ε β) = .error e := rfl

theorem parsePointPure_of_trkpt {u : Bool} {b : BBox} {e : Xml} {p : TrackPoint} {b1 : BBox}
    (h : parseTrkpt u b e = .ok (p, b1)) : parsePointPure u e = .ok p := by
  rw [parseTrkpt_eq_pure] at h
  cases hq : parsePointPure u e with
  | error er => rw [hq] at h; simp [Except.map] at h
  | ok q =>
    rw [hq] at h
    simp only [Except.map, Except.ok.injEq, Prod.mk.injEq] at h
    rw [h.1]

theorem parseSegment_mapM (u : Bool) (es : List Xml) :
    ∀ b ps b', parseSegment u b es = .ok (ps, b') →
      (es.filter (fun e => localName e.tag = "trkpt")).mapM (parsePointPure u) = .ok ps := by
  induction es with
  | nil =>
    intro b ps b' h
    simp only [parseSegment, Except.ok.injEq, Prod.mk.injEq] at h
    rw [List.filter_nil, List.mapM_nil, ← h.1]
    rfl
  | cons e rest ih =>
    intro b ps b' h
    simp only [parseSegment] at h
    by_cases hc : localName e.tag = "trkpt"
    · rw [if_pos hc] at h
      cases hp : parseTrkpt u b e with
      | error er => rw [hp] at h; simp at h
      | ok pb =>
        obtain ⟨p, b1⟩ := pb
        rw [hp] at h
        dsimp only at h
        cases hrest : parseSegment u b1 rest with
        | error er => rw [hrest] at h; simp at h
        | ok psb =>
          obtain ⟨ps1, b2⟩ := psb
          rw [hrest] at h
          dsimp only at h
          simp only [Except.ok.injEq, Prod.mk.injEq] at h
          rw [List.filter_cons_of_pos (by simp [hc]), List.mapM_cons,
            parsePointPure_of_trkpt hp, ok_bind, ih b1 ps1 b2 hrest, ok_bind, ← h.1]
          rfl
    · rw [if_neg hc] at h
      rw [List.filter_cons_of_neg (by simp [hc])]
      exact ih b ps b' h

theorem parseTrk_mapM (u : Bool) (es : List Xml) :
    ∀ b segs b', parseTrk u b es = .ok (segs, b') →
      ((es.filter (fun e => localName e.tag = "trkseg")).map
          (fun sg => sg.children.filter (fun e => localName e.tag = "trkpt"))).mapM
        (fun pts => pts.mapM (parsePointPure u)) = .ok segs := by
  induction es with
  | nil =>
    intro b segs b' h
    simp only [parseTrk, Except.ok.injEq, Prod.mk.injEq] at h
    rw [List.filter_nil, List.map_nil, List.mapM_nil, ← h.1]
    rfl
  | cons e rest ih =>
    intro b segs b' h
    simp only [parseTrk] at h
    by_cases hc : localName e.tag = "trkseg"
    · rw [if_pos hc] at h
      cases hp : parseSegment u b e.children with
      | error er => rw [hp] at h; simp at h
      | ok sb =>
        obtain ⟨seg, b1⟩ := sb
        rw [hp] at h
        dsimp only at h
        cases hrest : parseTrk u b1 rest with
        | error er => rw [hrest] at h; simp at h
        | ok sb2 =>
          obtain ⟨segs1, b2⟩ := sb2
          rw [hrest] at h
          dsimp only at h
          simp only [Except.ok.injEq, Prod.mk.injEq] at h
          rw [List.filter_cons_of_pos (by simp [hc]), List.map_cons, List.mapM_cons,
            parseSegment_mapM u e.children b seg b1 hp, ok_bind,
            ih b1 segs1 b2 hrest, ok_bind, ← h.1]
          rfl
    · rw [if_neg hc] at h
      rw [List.filter_cons_of_neg (by simp [hc])]
      exact ih b segs b' h

theorem parseRoot_mapM (u : Bool) (es : List Xml) :
    ∀ b segs b', parseRoot u b es = .ok (segs, b') →
      ((es.filter (fun e => localName e.tag = "trk")).flatMap
          (fun t => (t.children.filter (fun e => localName e.tag = "trkseg")).map
            (fun sg => sg.children.filter (fun e => localName e.tag = "trkpt")))).mapM
        (fun pts => pts.mapM (parsePointPure u)) = .ok segs := by
  induction es with
  | nil =>
    intro b segs b' h
    simp only [parseRoot, Except.ok.injEq, Prod.mk.injEq] at h
    rw [List.filter_nil, List.flatMap_nil, List.mapM_nil, ← h.1]
    rfl
  | cons e rest ih =>
    intro b segs b' h
    simp only [parseRoot] at h
    by_cases hc : localName e.tag = "trk"
    · rw [if_pos hc] at h
      cases hp : parseTrk u b e.children with
      | error er => rw [hp] at h; simp at h
      | ok sb =>
        obtain ⟨segs1, b1⟩ := sb
        rw [hp] at h
        dsimp only at h
        cases hrest : parseRoot u b1 rest with
        | error er => rw [hrest] at h; simp at h
        | ok sb2 =>
          obtain ⟨segs2, b2⟩ := sb2
          rw [hrest] at h
          dsimp only at h
          simp only [Except.ok.injEq, Prod.mk.injEq] at h
          rw [List.filter_cons_of_pos (by simp [hc]), List.flatMap_cons, List.mapM_append,
            parseTrk_mapM u e.children b segs1 b1 hp, ok_bind,
            ih b1 segs2 b2 hrest, ok_bind, ← h.1]
          rfl
    · rw [if_neg hc] at h
      rw [List.filter_cons_of_neg (by simp [hc])]
      exact ih b segs b' h

theorem pyAttr_ok {e : Xml} {name s : String} (h : pyAttr e name = .ok s) :
    e.attrib.lookup name = some s := by
  unfold pyAttr at h
  cases hl : e.attrib.lookup name with
  | none => rw [hl] at h; simp at h
  | some t => rw [hl] at h; simp only [Except.ok.injEq] at h; rw [h]

/-! ### Claim C7 -/

/-- Claim C7: order preservation.  Whenever the parsing loops succeed, the
returned segments are exactly the per-trkseg, document-order lists of
parsed trkpt elements — tracks flattened in document order, segments in
document order, points in document order (the nested mapM over `docSegs`
reproduces them) — and the curve builder turns them into one spline per
segment with the points in the same order. -/
theorem order_preservation (u : Bool) (proj : ℚ → ℚ → ℚ × ℚ) (gpx : Xml)
    (segs : List (List TrackPoint)) (b : BBox)
    (h : parseGpx u gpx = .ok (segs, b)) :
    (docSegs gpx).mapM (fun pts => pts.mapM (parsePointPure u)) = .ok segs ∧
    makeCurve u proj segs = segs.map (fun s => s.map (projectPoint u proj)) :=
  ⟨parseRoot_mapM u gpx.children initBBox segs b h, makeCurve_eq_map u proj segs⟩

theorem parseGpx_docTwoPts :
    parseGpx true docTwoPts =
      .ok ([[⟨40, -105, some 1600⟩, ⟨80001/2000, -105, none⟩]],
        ⟨40, 80001/2000, -105, -105⟩) := by
  have hbb1 : bboxUpdate initBBox 40 (-105) = ⟨40, -90, -105, -180⟩ := by decide
  have hbb2 : bboxUpdate ⟨40, -90, -105, -180⟩ (80001/2000) (-105) =
      ⟨40, 80001/2000, -105, -105⟩ := by
    norm_num [bboxUpdate]
  simp [parseGpx, docTwoPts, parseRoot, parseTrk, parseSegment, parseTrkpt, pyAttr, pyFloat,
    parseFloat_forty, parseFloat_neg105, parseFloat_1600, parseFloat_405, trkptEle, trkptNoEle,
    Xml.children, Xml.tag, Xml.attrib, Xml.text, localName, dropThroughBrace, List.lookup,
    hbb1, hbb2]

/-- Claim C7, witness: the two-point document parses to its document-order
points, matched by the nested document-order reparse. -/
theorem order_preservation_witness :
    parseGpx true docTwoPts =
      .ok ([[⟨40, -105, some 1600⟩, ⟨80001/2000, -105, none⟩]],
        ⟨40, 80001/2000, -105, -105⟩) ∧
    (docSegs docTwoPts).mapM (fun pts => pts.mapM (parsePointPure true)) =
      .ok [[⟨40, -105, some 1600⟩, ⟨80001/2000, -105, none⟩]] :=
  ⟨parseGpx_docTwoPts,
    (order_preservation true sampleProj docTwoPts _ _ parseGpx_docTwoPts).1⟩

/-! ### Claim C5 -/

theorem mapM_ok_mem {α β εt : Type} (f : α → Except εt β) :
    ∀ (l : List α) (ys : List β), l.mapM f = .ok ys → ∀ x ∈ l, ∃ y, f x = .ok y := by
  intro l
  induction l with
  | nil => intro ys h x hx; cases hx
  | cons a l ih =>
    intro ys h x hx
    rw [List.mapM_cons] at h
    cases ha : f a with
    | error er => rw [ha, error_bind] at h; simp at h
    | ok y =>
      rw [ha, ok_bind] at h
      cases hl : l.mapM f with
      | error er => rw [hl, error_bind] at h; simp at h
      | ok ys1 =>
        rcases List.mem_cons.mp hx with rfl | hx2
        · exact ⟨y, ha⟩
        · exact ih ys1 hl x hx2

theorem parsePointPure_bad (u : Bool) (e3 : Xml)
    (hbad : e3.attrib.lookup "lat" = none ∨
      (∃ s, e3.attrib.lookup "lat" = some s ∧ parseFloat s = none) ∨
      e3.attrib.lookup "lon" = none ∨
      (∃ s, e3.attrib.lookup "lon" = some s ∧ parseFloat s = none)) :
    ∀ p, parsePointPure u e3 ≠ .ok p := by
  intro p hok
  unfold parsePointPure at hok
  cases hA : pyAttr e3 "lat" with
  | error er => rw [hA] at hok; simp at hok
  | ok latS =>
    have hAl := pyAttr_ok hA
    rw [hA] at hok
    dsimp only at hok
    cases hB : pyFloat latS with
    | error er => rw [hB] at hok; simp at hok
    | ok lat =>
      have hBl := pyFloat_ok hB
      rw [hB] at hok
      dsimp only at hok
      cases hC : pyAttr e3 "lon" with
      | error er => rw [hC] at hok; simp at hok
      | ok lonS =>
        have hCl := pyAttr_ok hC
        rw [hC] at hok
        dsimp only at hok
        cases hD : pyFloat lonS with
        | error er => rw [hD] at hok; simp at hok
        | ok lon =>
          have hDl := pyFloat_ok hD
          rcases hbad with h | ⟨s, hs, hps⟩ | h | ⟨s, hs, hps⟩
          · rw [h] at hAl; cases hAl
          · rw [hs] at hAl
            simp only [Option.some.injEq] at hAl
            rw [hAl] at hps
            rw [hps] at hBl
            cases hBl
          · rw [h] at hCl; cases hCl
          · rw [hs] at hCl
            simp only [Option.some.injEq] at hCl
            rw [hCl] at hps
            rw [hps] at hDl
            cases hDl

/-- Claim C5: fail-fast with no side effects.  If the XML itself cannot be
parsed, `read_gpx_file` propagates that error with the scene untouched; and
if the document contains a trkpt (at its trk/trkseg/trkpt position, i.e. a
member of `docSegs`) whose `lat` or `lon` attribute is missing or
non-numeric, the whole import aborts with an error before `getProjection`
runs: no segments or projection are produced and no origin is written to
the scene. -/
theorem parse_failure_aborts (u ig : Bool) (scene : Scene) (er : GpxError) (gpx : Xml)
    (pts : List Xml) (e3 : Xml) :
    read_gpx_file u ig (.error er) scene = (.error er, scene) ∧
    (pts ∈ docSegs gpx → e3 ∈ pts →
      (e3.attrib.lookup "lat" = none ∨
        (∃ s, e3.attrib.lookup "lat" = some s ∧ parseFloat s = none) ∨
        e3.attrib.lookup "lon" = none ∨
        (∃ s, e3.attrib.lookup "lon" = some s ∧ parseFloat s = none)) →
      ∃ err, read_gpx_file u ig (.ok gpx) scene = (.error err, scene)) := by
  refine ⟨rfl, ?_⟩
  intro hpts he3 hbad
  cases hp : parseGpx u gpx with
  | error err => exact ⟨err, read_gpx_file_err u ig gpx scene err hp⟩
  | ok res =>
    obtain ⟨segs, b⟩ := res
    exfalso
    have h1 := parseRoot_mapM u gpx.children initBBox segs b hp
    obtain ⟨ys, hys⟩ := mapM_ok_mem (fun pts => pts.mapM (parsePointPure u)) _ _ h1 pts hpts
    obtain ⟨p, hpt⟩ := mapM_ok_mem (parsePointPure u) _ _ hys e3 he3
    exact parsePointPure_bad u e3 hbad p hpt

/-- Claim C5, witness: the document whose only trkpt is missing `lon`
aborts with an error and the fresh scene stays fresh. -/
theorem parse_failure_aborts_witness :
    [trkptNoLon] ∈ docSegs docNoLon ∧ trkptNoLon ∈ [trkptNoLon] ∧
    trkptNoLon.attrib.lookup "lon" = none ∧
    ∃ err, read_gpx_file true false (.ok docNoLon) ⟨none, none⟩ =
      (.error err, ⟨none, none⟩) := by
  have hd : docSegs docNoLon = [[trkptNoLon]] := rfl
  refine ⟨by rw [hd]; exact List.mem_singleton.mpr rfl, List.mem_singleton.mpr rfl, rfl, ?_⟩
  exact (parse_failure_aborts true false ⟨none, none⟩ .parseError docNoLon [trkptNoLon]
    trkptNoLon).2 (by rw [hd]; exact List.mem_singleton.mpr rfl) (List.mem_singleton.mpr rfl)
    (Or.inr (Or.inr (Or.inl rfl)))

/-! ### Claim C6 -/

/-- Claim C6, counterexample: the `<gpx></gpx>` scenario expects the import
to avoid creating a degenerate/empty scene object (and to report an
EmptyTrackWarning) — but `execute` creates and links the curve object
unconditionally on parse success, so the empty document yields exactly a
created empty object (`some []`, zero written splines); the operator has no
warning mechanism at all (it never calls `self.report`). -/
theorem empty_doc_object_cex : ¬ claimC6EmptyObjectAvoided sampleFromGeo := by
  intro h
  apply h
  rw [show executeCurveImport sampleFromGeo true false (.ok docEmpty) ⟨none, none⟩ =
      (some (makeCurve true (sampleFromGeo ⟨(90 + -90) / 2, (180 + -180) / 2⟩) []),
       ⟨some ((90 + -90) / 2), some ((180 + -180) / 2)⟩) from rfl]
  rw [show makeCurve true (sampleFromGeo ⟨(90 + -90) / 2, (180 + -180) / 2⟩) [] =
      ([] : List (List Point3)) from rfl]

/-- Claim C6 (amended): for the empty well-formed document the import
produces zero splines and raises no fatal error — but it does not report
any warning (no warning mechanism exists in the code) and it still creates
and links an empty curve object, persisting the degenerate origin (0, 0)
into the fresh scene. -/
theorem empty_doc_amended (fromGeo : TransverseMercator → ℚ → ℚ → ℚ × ℚ) (u : Bool)
    (t : String) (a : List (String × String)) (x : Option String) :
    executeCurveImport fromGeo u false (.ok (Xml.elem t a x [])) ⟨none, none⟩ =
      (some [], ⟨some 0, some 0⟩) := by
  have hp : parseGpx u (Xml.elem t a x []) = .ok ([], initBBox) := rfl
  unfold executeCurveImport
  rw [read_gpx_file_ok u false (Xml.elem t a x []) ⟨none, none⟩ [] initBBox hp]
  norm_num [getProjection, makeCurve, initBBox]

/-! ### Claim C10 -/

theorem parseSegment_bbox_of_empty (u : Bool) (es : List Xml) :
    ∀ b b', parseSegment u b es = .ok ([], b') → b' = b := by
  induction es with
  | nil =>
    intro b b' h
    simp only [parseSegment, Except.ok.injEq, Prod.mk.injEq] at h
    exact h.2.symm
  | cons e rest ih =>
    intro b b' h
    simp only [parseSegment] at h
    by_cases hc : localName e.tag = "trkpt"
    · rw [if_pos hc] at h
      cases hp : parseTrkpt u b e with
      | error er => rw [hp] at h; simp at h
      | ok pb =>
        obtain ⟨p, b1⟩ := pb
        rw [hp] at h
        dsimp only at h
        cases hrest : parseSegment u b1 rest with
        | error er => rw [hrest] at h; simp at h
        | ok psb =>
          obtain ⟨ps1, b2⟩ := psb
          rw [hrest] at h
          dsimp only at h
          simp at h
    · rw [if_neg hc] at h
      exact ih b b' h

theorem parseTrk_bbox_of_empty (u : Bool) (es : List Xml) :
    ∀ b segs b', parseTrk u b es = .ok (segs, b') → segs.flatten = [] → b' = b := by
  induction es with
  | nil =>
    intro b segs b' h _
    simp only [parseTrk, Except.ok.injEq, Prod.mk.injEq] at h
    exact h.2.symm
  | cons e rest ih =>
    intro b segs b' h hfl
    simp only [parseTrk] at h
    by_cases hc : localName e.tag = "trkseg"
    · rw [if_pos hc] at h
      cases hp : parseSegment u b e.children with
      | error er => rw [hp] at h; simp at h
      | ok sb =>
        obtain ⟨seg, b1⟩ := sb
        rw [hp] at h
        dsimp only at h
        cases hrest : parseTrk u b1 rest with
        | error er => rw [hrest] at h; simp at h
        | ok sb2 =>
          obtain ⟨segs1, b2⟩ := sb2
          rw [hrest] at h
          dsimp only at h
          simp only [Except.ok.injEq, Prod.mk.injEq] at h
          obtain ⟨hsegs, hb⟩ := h
          rw [← hsegs] at hfl
          rw [List.flatten_cons] at hfl
          obtain ⟨hseg, hfl1⟩ := List.append_eq_nil.mp hfl
          rw [hseg] at hp
          have h1 := parseSegment_bbox_of_empty u e.children b b1 hp
          rw [← hb]
          exact (ih b1 segs1 b2 hrest hfl1).trans h1
    · rw [if_neg hc] at h
      exact ih b segs b' h hfl

theorem parseRoot_bbox_of_empty (u : Bool) (es : List Xml) :
    ∀ b segs b', parseRoot u b es = .ok (segs, b') → segs.flatten = [] → b' = b := by
  induction es with
  | nil =>
    intro b segs b' h _
    simp only [parseRoot, Except.ok.injEq, Prod.mk.injEq] at h
    exact h.2.symm
  | cons e rest ih =>
    intro b segs b' h hfl
    simp only [parseRoot] at h
    by_cases hc : localName e.tag = "trk"
    · rw [if_pos hc] at h
      cases hp : parseTrk u b e.children with
      | error er => rw [hp] at h; simp at h
      | ok sb =>
        obtain ⟨segs1, b1⟩ := sb
        rw [hp] at h
        dsimp only at h
        cases hrest : parseRoot u b1 rest with
        | error er => rw [hrest] at h; simp at h
        | ok sb2 =>
          obtain ⟨segs2, b2⟩ := sb2
          rw [hrest] at h
          dsimp only at h
          simp only [Except.ok.injEq, Prod.mk.injEq] at h
          obtain ⟨hsegs, hb⟩ := h
          rw [← hsegs, List.flatten_append] at hfl
          obtain ⟨hfl1, hfl2⟩ := List.append_eq_nil.mp hfl
          have h1 := parseTrk_bbox_of_empty u e.children b segs1 b1 hp hfl1
          rw [← hb]
          exact (ih b1 segs2 b2 hrest hfl2).trans h1
    · rw [if_neg hc] at h
      exact ih b segs b' h hfl

/-- Claim C10: for a successfully parsed document with zero track points,
the extent stays at its sentinel values, so `read_gpx_file` hands
`getProjection` the degenerate center ((90 + (-90))/2, (180 + (-180))/2)
= (0, 0); when the scene has no complete stored origin, or
`ignoreGeoreferencing` is set, that degenerate origin is persisted and the
projector is centered at (0, 0) — the empty case is not special-cased. -/
theorem degenerate_origin_empty (u ig : Bool) (gpx : Xml) (scene : Scene)
    (segs : List (List TrackPoint)) (tm : TransverseMercator) (s' : Scene)
    (h : read_gpx_file u ig (.ok gpx) scene = (.ok (segs, tm), s'))
    (hempty : segs.flatten = [])
    (hfresh : ig = true ∨ scene.storedLat = none ∨ scene.storedLon = none) :
    tm = ⟨0, 0⟩ ∧ s' = ⟨some 0, some 0⟩ := by
  unfold read_gpx_file at h
  dsimp only at h
  cases hp : parseGpx u gpx with
  | error er => rw [hp] at h; simp at h
  | ok sb =>
    obtain ⟨segs0, b⟩ := sb
    rw [hp] at h
    dsimp only at h
    simp only [Prod.mk.injEq, Except.ok.injEq] at h
    obtain ⟨⟨hsegs, htm⟩, hs⟩ := h
    have hb : b = initBBox := by
      have := parseRoot_bbox_of_empty u gpx.children initBBox segs0 b hp
      apply this
      rw [hsegs]
      exact hempty
    subst hb
    have hcond : (scene.storedLat.isSome && scene.storedLon.isSome && !ig) = false := by
      rcases hfresh with h1 | h1 | h1 <;> simp [h1]
    have hgp : getProjection ig scene ((initBBox.minLat + initBBox.maxLat) / 2)
        ((initBBox.minLon + initBBox.maxLon) / 2) =
        (⟨(initBBox.minLat + initBBox.maxLat) / 2, (initBBox.minLon + initBBox.maxLon) / 2⟩,
         ⟨some ((initBBox.minLat + initBBox.maxLat) / 2),
          some ((initBBox.minLon + initBBox.maxLon) / 2)⟩) := by
      unfold getProjection
      rw [if_neg (by rw [hcond]; simp)]
    rw [hgp] at htm hs
    have hz1 : (initBBox.minLat + initBBox.maxLat) / 2 = (0 : ℚ) := by
      norm_num [initBBox]
    have hz2 : (initBBox.minLon + initBBox.maxLon) / 2 = (0 : ℚ) := by
      norm_num [initBBox]
    rw [hz1, hz2] at htm hs
    exact ⟨htm.symm, hs.symm⟩

/-- Claim C10, witness: imported empty document with `ignoreGeoreferencing`
set on a scene that already stores an origin — the degenerate origin (0, 0)
replaces it and the projector is centered at (0, 0). -/
theorem degenerate_origin_empty_witness :
    read_gpx_file true true (.ok docEmpty) ⟨some 5, some 6⟩ =
      (.ok ([], ⟨0, 0⟩), ⟨some 0, some 0⟩) ∧
    (⟨0, 0⟩ : TransverseMercator) = ⟨0, 0⟩ ∧ (⟨some 0, some 0⟩ : Scene) = ⟨some 0, some 0⟩ := by
  have hread : read_gpx_file true true (.ok docEmpty) ⟨some 5, some 6⟩ =
      (.ok ([], ⟨0, 0⟩), ⟨some 0, some 0⟩) := by
    rw [read_gpx_file_ok true true docEmpty ⟨some 5, some 6⟩ [] initBBox rfl]
    norm_num [getProjection, initBBox]
  refine ⟨hread, ?_⟩
  have h := degenerate_origin_empty true true docEmpty ⟨some 5, some 6⟩ [] ⟨0, 0⟩
    ⟨some 0, some 0⟩ hread rfl (Or.inl rfl)
  exact ⟨h.1, h.2⟩

/-! ### Claim C9 -/

theorem dropThroughBrace_append (l2 : List Char) :
    ∀ l1 : List Char, (∀ c ∈ l1, c ≠ '\x7d') →
      dropThroughBrace (l1 ++ '\x7d' :: l2) = some l2 := by
  intro l1
  induction l1 with
  | nil =>
    intro _
    rw [List.nil_append]
    rw [show dropThroughBrace ('\x7d' :: l2) = some l2 from by
      rw [dropThroughBrace]; rw [if_pos rfl]]
  | cons c l ih =>
    intro h
    rw [List.cons_append, dropThroughBrace,
      if_neg (h c (List.mem_cons_self c l))]
    exact ih (fun x hx => h x (List.mem_cons_of_mem c hx))

theorem dropThroughBrace_none (l : List Char) :
    (∀ c ∈ l, c ≠ '\x7d') → dropThroughBrace l = none := by
  induction l with
  | nil => intro _; rfl
  | cons c rest ih =>
    intro h
    rw [dropThroughBrace, if_neg (h c (List.mem_cons_self c rest))]
    exact ih (fun x hx => h x (List.mem_cons_of_mem c hx))

theorem noBrace_forall {s : String} (h : noBrace s = true) : ∀ c ∈ s.data, c ≠ '\x7d' := by
  intro c hc
  unfold noBrace at h
  rw [List.all_eq_true] at h
  exact bne_iff_ne.mp (h c hc)

theorem localName_nsWrap (ns t : String) (hns : noBrace ns = true) :
    localName (nsWrap ns t) = t := by
  unfold localName nsWrap
  have hd : ("\x7b" ++ ns ++ "\x7d" ++ t).data = '\x7b' :: (ns.data ++ '\x7d' :: t.data) := by
    rw [String.data_append, String.data_append, String.data_append]
    rw [show ("\x7b" : String).data = ['\x7b'] from rfl,
      show ("\x7d" : String).data = ['\x7d'] from rfl]
    simp
  rw [hd, dropThroughBrace, if_neg (by decide),
    dropThroughBrace_append t.data ns.data (noBrace_forall hns)]

theorem localName_of_noBrace (t : String) (h : noBrace t = true) : localName t = t := by
  unfold localName
  rw [dropThroughBrace_none t.data (noBrace_forall h)]

theorem text_addNsDepth (ns : String) (n : Nat) (e : Xml) :
    (addNsDepth ns (n + 1) e).text = e.text := by
  obtain ⟨t, a, x, c⟩ := e
  rfl

theorem tagsClean_succ (n : Nat) (t : String) (a : List (String × String)) (x : Option String)
    (c : List Xml) (h : tagsClean (n + 1) (Xml.elem t a x c) = true) :
    noBrace t = true ∧ c.all (tagsClean n) = true := by
  rw [show tagsClean (n + 1) (Xml.elem t a x c) = (noBrace t && c.all (tagsClean n)) from rfl,
    Bool.and_eq_true] at h
  exact h

theorem find_ele_addNs (ns : String) (hns : noBrace ns = true) :
    ∀ c : List Xml, c.all (tagsClean 1) = true →
      (c.map (addNsDepth ns 1)).find? (fun e4 => localName e4.tag == "ele") =
        Option.map (addNsDepth ns 1) (c.find? (fun e4 => localName e4.tag == "ele")) := by
  intro c
  induction c with
  | nil => intro _; rfl
  | cons e rest ih =>
    intro hcl
    rw [List.all_cons, Bool.and_eq_true] at hcl
    obtain ⟨he, hrest⟩ := hcl
    obtain ⟨t, a, x, cc⟩ := e
    obtain ⟨ht, _⟩ := tagsClean_succ 0 t a x cc he
    rw [List.map_cons]
    rw [show addNsDepth ns 1 (Xml.elem t a x cc) =
      Xml.elem (nsWrap ns t) a x (cc.map (addNsDepth ns 0)) from rfl]
    have hpw : (localName (Xml.elem (nsWrap ns t) a x (cc.map (addNsDepth ns 0))).tag == "ele")
        = (t == "ele") := by
      dsimp only [Xml.tag]
      rw [localName_nsWrap ns t hns]
    have hpo : (localName (Xml.elem t a x cc).tag == "ele") = (t == "ele") := by
      dsimp only [Xml.tag]
      rw [localName_of_noBrace t ht]
    by_cases hb : (t == "ele") = true
    · rw [List.find?_cons_of_pos _ (by rw [hpw]; exact hb),
        List.find?_cons_of_pos _ (by rw [hpo]; exact hb)]
      rfl
    · rw [List.find?_cons_of_neg _ (by rw [hpw]; exact hb),
        List.find?_cons_of_neg _ (by rw [hpo]; exact hb)]
      exact ih hrest

theorem parseTrkpt_addNs (ns : String) (hns : noBrace ns = true) (u : Bool) (b : BBox)
    (t : String) (a : List (String × String)) (x : Option String) (c : List Xml)
    (hcl : c.all (tagsClean 1) = true) :
    parseTrkpt u b (Xml.elem (nsWrap ns t) a x (c.map (addNsDepth ns 1))) =
      parseTrkpt u b (Xml.elem t a x c) := by
  simp only [parseTrkpt, pyAttr, Xml.attrib, Xml.children]
  rw [find_ele_addNs ns hns c hcl]
  cases a.lookup "lat" with
  | none => rfl
  | some latS =>
    dsimp only
    cases pyFloat latS with
    | error er => rfl
    | ok lat =>
      dsimp only
      cases a.lookup "lon" with
      | none => rfl
      | some lonS =>
        dsimp only
        cases pyFloat lonS with
        | error er => rfl
        | ok lon =>
          dsimp only
          cases hF : c.find? (fun e4 => localName e4.tag == "ele") with
          | none => rfl
          | some e4 =>
            dsimp only [Option.map]
            cases u with
            | false => rfl
            | true =>
              rw [if_pos rfl, if_pos rfl, text_addNsDepth ns 0 e4]

theorem parseSegment_addNs (ns : String) (hns : noBrace ns = true) (u : Bool)
    (es : List Xml) :
    es.all (tagsClean 2) = true →
      ∀ b, parseSegment u b (es.map (addNsDepth ns 2)) = parseSegment u b es := by
  induction es with
  | nil => intro _ b; rfl
  | cons e rest ih =>
    intro hcl b
    rw [List.all_cons, Bool.and_eq_true] at hcl
    obtain ⟨he, hrest⟩ := hcl
    obtain ⟨t, a, x, c⟩ := e
    obtain ⟨ht, hc1⟩ := tagsClean_succ 1 t a x c he
    rw [List.map_cons]
    rw [show addNsDepth ns 2 (Xml.elem t a x c) =
      Xml.elem (nsWrap ns t) a x (c.map (addNsDepth ns 1)) from rfl]
    simp only [parseSegment]
    dsimp only [Xml.tag]
    rw [localName_nsWrap ns t hns, localName_of_noBrace t ht]
    by_cases hcnd : t = "trkpt"
    · rw [if_pos hcnd, if_pos hcnd, parseTrkpt_addNs ns hns u b t a x c hc1]
      simp only [ih hrest]
    · rw [if_neg hcnd, if_neg hcnd]
      exact ih hrest b

theorem parseTrk_addNs (ns : String) (hns : noBrace ns = true) (u : Bool)
    (es : List Xml) :
    es.all (tagsClean 3) = true →
      ∀ b, parseTrk u b (es.map (addNsDepth ns 3)) = parseTrk u b es := by
  induction es with
  | nil => intro _ b; rfl
  | cons e rest ih =>
    intro hcl b
    rw [List.all_cons, Bool.and_eq_true] at hcl
    obtain ⟨he, hrest⟩ := hcl
    obtain ⟨t, a, x, c⟩ := e
    obtain ⟨ht, hc1⟩ := tagsClean_succ 2 t a x c he
    rw [List.map_cons]
    rw [show addNsDepth ns 3 (Xml.elem t a x c) =
      Xml.elem (nsWrap ns t) a x (c.map (addNsDepth ns 2)) from rfl]
    simp only [parseTrk]
    dsimp only [Xml.tag, Xml.children]
    rw [localName_nsWrap ns t hns, localName_of_noBrace t ht]
    by_cases hcnd : t = "trkseg"
    · rw [if_pos hcnd, if_pos hcnd, parseSegment_addNs ns hns u c hc1 b]
      simp only [ih hrest]
    · rw [if_neg hcnd, if_neg hcnd]
      exact ih hrest b

theorem parseRoot_addNs (ns : String) (hns : noBrace ns = true) (u : Bool)
    (es : List Xml) :
    es.all (tagsClean 4) = true →
      ∀ b, parseRoot u b (es.map (addNsDepth ns 4)) = parseRoot u b es := by
  induction es with
  | nil => intro _ b; rfl
  | cons e rest ih =>
    intro hcl b
    rw [List.all_cons, Bool.and_eq_true] at hcl
    obtain ⟨he, hrest⟩ := hcl
    obtain ⟨t, a, x, c⟩ := e
    obtain ⟨ht, hc1⟩ := tagsClean_succ 3 t a x c he
    rw [List.map_cons]
    rw [show addNsDepth ns 4 (Xml.elem t a x c) =
      Xml.elem (nsWrap ns t) a x (c.map (addNsDepth ns 3)) from rfl]
    simp only [parseRoot]
    dsimp only [Xml.tag, Xml.children]
    rw [localName_nsWrap ns t hns, localName_of_noBrace t ht]
    by_cases hcnd : t = "trk"
    · rw [if_pos hcnd, if_pos hcnd, parseTrk_addNs ns hns u c hc1 b]
      simp only [ih hrest]
    · rw [if_neg hcnd, if_neg hcnd]
      exact ih hrest b

/-- Claim C9: tag matching is by local name only.  First conjunct:
qualifying every tag of a namespace-free document with any namespace URI
(written the `etree` way, as a curly-bracketed prefix) down to the depth
the parser inspects does not change the parse result, so trk/trkseg/trkpt/
ele elements are recognized regardless of namespace, and with no namespace
at all.  Second and third conjuncts: the stripping itself — the local name
of a wrapped tag is the original tag, and a bracket-free tag is its own
local name.  Last three conjuncts: at each of the three nesting levels, an
element whose local name differs from trk/trkseg/trkpt respectively is
skipped outright. -/
theorem local_name_matching (ns : String) (u : Bool) (gpx : Xml)
    (hns : noBrace ns = true) (hcl : tagsClean 5 gpx = true) :
    parseGpx u (addNsDepth ns 5 gpx) = parseGpx u gpx ∧
    (∀ t : String, localName (nsWrap ns t) = t) ∧
    (∀ t : String, noBrace t = true → localName t = t) ∧
    (∀ (b : BBox) (e : Xml) rest, ¬ localName e.tag = "trk" →
        parseRoot u b (e :: rest) = parseRoot u b rest) ∧
    (∀ (b : BBox) (e : Xml) rest, ¬ localName e.tag = "trkseg" →
        parseTrk u b (e :: rest) = parseTrk u b rest) ∧
    (∀ (b : BBox) (e : Xml) rest, ¬ localName e.tag = "trkpt" →
        parseSegment u b (e :: rest) = parseSegment u b rest) := by
  refine ⟨?_, fun t => localName_nsWrap ns t hns, fun t ht => localName_of_noBrace t ht,
    ?_, ?_, ?_⟩
  · obtain ⟨t, a, x, c⟩ := gpx
    obtain ⟨_, hc4⟩ := tagsClean_succ 4 t a x c hcl
    unfold parseGpx
    rw [show addNsDepth ns 5 (Xml.elem t a x c) =
      Xml.elem (nsWrap ns t) a x (c.map (addNsDepth ns 4)) from rfl]
    dsimp only [Xml.children]
    exact parseRoot_addNs ns hns u c hc4 initBBox
  · intro b e rest h
    simp only [parseRoot]
    rw [if_neg h]
  · intro b e rest h
    simp only [parseTrk]
    rw [if_neg h]
  · intro b e rest h
    simp only [parseSegment]
    rw [if_neg h]

/-- Claim C9, witness: wrapping every tag of the two-point document in a
concrete namespace leaves the parse unchanged. -/
theorem local_name_matching_witness :
    noBrace "ns0" = true ∧ tagsClean 5 docTwoPts = true ∧
    parseGpx true (addNsDepth "ns0" 5 docTwoPts) = parseGpx true docTwoPts :=
  ⟨rfl, rfl, (local_name_matching "ns0" true docTwoPts rfl rfl).1⟩
